import Mathlib

/-!
Verification development for the Live-Job-Tracking repository.

The definitions below are a shallow embedding of the Python source in
`data_processor.py` and `rate_limiter.py` (class `JiraDataProcessor` and class
`RateLimiter`).  Python strings become `String`, Python lists become `List`,
pandas timestamps become the `Timestamp` structure (date part plus time of
day, compared lexicographically, which is how Python datetime comparison
behaves), Python integers become `Nat`/`Int`, and Python `None` becomes
`Option.none`.  Fallible code returns `Except`.
-/

deriving instance DecidableEq for Except

namespace LJT

/-- Model of Python `str.lower()` for the ASCII status and label strings the
program handles: lowercase every character. -/
def pyLower (s : String) : String :=
  String.mk (s.data.map (fun c => if 'A' ≤ c && c ≤ 'Z' then Char.ofNat (c.toNat + 32) else c))

/-- Model of Python `str.upper()` for the ASCII label strings. -/
def pyUpper (s : String) : String :=
  String.mk (s.data.map (fun c => if 'a' ≤ c && c ≤ 'z' then Char.ofNat (c.toNat - 32) else c))

/-- Model of a pandas/Python timestamp: a date (day index) and a time of day.
Comparison of Python datetimes is lexicographic on the date and the time of
day; `x.date()` is the `day` projection. -/
structure Timestamp where
  day : Nat
  tod : Nat
deriving DecidableEq, Repr

/-- Lexicographic comparison of timestamps, mirroring Python datetime order. -/
def Timestamp.le (a b : Timestamp) : Bool :=
  if a.day < b.day then true
  else if a.day = b.day then decide (a.tod ≤ b.tod)
  else false

/-- Model of one item of a changelog history entry (Jira REST shape
`changelog.histories[].items[]` with fields `field`, `fromString`, `toString`). -/
structure HistoryItem where
  field : String
  fromString : String
  toString : String
deriving DecidableEq, Repr

/-- Model of one changelog history entry: a timestamp (`created`) and items. -/
structure HistoryEntry where
  created : Timestamp
  items : List HistoryItem
deriving DecidableEq, Repr

/-- Model of a raw Jira issue as consumed by `process_issues`: `key`,
`fields.summary`, `fields.status.name`, `fields.created`, `fields.labels`,
and the optional `changelog` (Python: `if changelog in issue`; absence is
modelled by `none`). -/
structure RawIssue where
  key : String
  summary : String
  status : String
  created : Timestamp
  labels : List String
  changelog : Option (List HistoryEntry)
deriving DecidableEq, Repr

/-- Model of one entry of the `status_changes` list built by `process_issues`:
the dict `{date, from_status, to_status}`. -/
structure StatusChange where
  date : Timestamp
  from_status : String
  to_status : String
deriving DecidableEq, Repr

/-- Model of one row of the DataFrame built by `process_issues`. -/
structure Row where
  key : String
  job_number : String
  status : String
  created_date : Timestamp
  stage : String
  status_changes : List StatusChange
  location : String
deriving DecidableEq, Repr

/-! ## Stage classifier (`determine_stage`, data_processor.py lines 218-259) -/

/-- Embedding of `JiraDataProcessor.determine_stage`: lowercase the status and
test membership in the fixed lists, in the order the source tests them. -/
def determine_stage (status : String) : String :=
  let s := pyLower status
  if s ∈ ["testing"] then "Testing"
  else if s ∈ ["sample prep", "sample preparation"] then "Sample Preparation"
  else if s ∈ ["open"] then "Open"
  else if s ∈ ["report"] then "Report"
  else "Other"

/-! ## Job-number validity check (`process_issues`, lines 108-129)

The source checks `job_number.startswith(tuple(uppercase letters))` and then
`re.match(r'^[A-Z]{4}\d{4}\.\d\s+\([^)]*\)', job_number)`.  The regex is a
prefix match: four uppercase letters, four digits, a dot, one digit, one or
more whitespace characters, then a parenthesized run of non-parenthesis
characters.  We embed the regex as a direct scanner over the character list;
the starred/plussed pieces are greedy, and since the character following each
of them in the pattern is excluded from the repeated class, greedy matching
without backtracking is exact. -/

/-- Character class `[A-Z]` of the source regex. -/
def isUpperAZ (c : Char) : Bool := 'A' ≤ c && c ≤ 'Z'

/-- Character class `\d` of the source regex (inputs are ASCII). -/
def isDigit09 (c : Char) : Bool := '0' ≤ c && c ≤ '9'

/-- Character class `\s` of the source regex (ASCII whitespace). -/
def isSpaceWS (c : Char) : Bool :=
  c = ' ' || c = '\t' || c = '\n' || c = '\x0d' || c = '\x0b' || c = '\x0c'

/-- Match exactly `n` characters of class `p`, returning the rest. -/
def matchN (p : Char → Bool) : Nat → List Char → Option (List Char)
  | 0, cs => some cs
  | n + 1, [] => (fun _ => none) n
  | n + 1, c :: cs => if p c then matchN p n cs else none

/-- Greedily consume characters of class `p` (regex star). -/
def matchStar (p : Char → Bool) : List Char → List Char
  | [] => []
  | c :: cs => if p c then matchStar p cs else c :: cs

/-- Greedily consume one or more characters of class `p` (regex plus). -/
def matchPlus (p : Char → Bool) : List Char → Option (List Char)
  | [] => none
  | c :: cs => if p c then some (matchStar p cs) else none

/-- Embedding of `re.match(r'^[A-Z]{4}\d{4}\.\d\s+\([^)]*\)', s)` viewed as a
boolean (the source only tests truthiness of the match object). -/
def matchJobPattern (s : String) : Bool :=
  match matchN isUpperAZ 4 s.data with
  | none => false
  | some cs1 =>
    match matchN isDigit09 4 cs1 with
    | none => false
    | some cs2 =>
      match cs2 with
      | '.' :: cs3 =>
        match matchN isDigit09 1 cs3 with
        | none => false
        | some cs4 =>
          match matchPlus isSpaceWS cs4 with
          | none => false
          | some cs5 =>
            match cs5 with
            | '(' :: cs6 =>
              match matchStar (fun c => c ≠ ')') cs6 with
              | ')' :: _ => true
              | _ => false
            | _ => false
      | _ => false

/-- Embedding of `job_number.startswith(tuple(string.ascii_uppercase))`. -/
def startsWithUpperAZ (s : String) : Bool :=
  match s.data with
  | [] => false
  | c :: _ => isUpperAZ c

/-- Combined validity check applied by `process_issues` (lines 116 and 124):
the summary must start with an uppercase letter and match the job pattern. -/
def is_valid_job_number (summary : String) : Bool :=
  startsWithUpperAZ summary && matchJobPattern summary

/-! ## Test-number extraction (`extract_test_number`, lines 359-402)

The source uses four precompiled regexes.  Each is embedded as a scanner with
the exact semantics of `findall`/`search` on the pattern in question. -/

/-- Scanner state helper for `PARENS_PATTERN.findall`, the regex
`\(([^)]+)\)`: collect every maximal parenthesized run of one or more
non-close-paren characters, scanning left to right.  The accumulator `cur`
is `some` (reversed content) while inside an open parenthesis. -/
def parensFindallAux : List Char → Option (List Char) → List String → List String
  | [], _, acc => acc.reverse
  | c :: rest, none, acc =>
    if c = '(' then parensFindallAux rest (some []) acc
    else parensFindallAux rest none acc
  | c :: rest, some cur, acc =>
    if c = ')' then
      if cur.isEmpty then parensFindallAux rest none acc
      else parensFindallAux rest none (String.mk cur.reverse :: acc)
    else parensFindallAux rest (some (c :: cur)) acc

/-- Embedding of `PARENS_PATTERN.findall(job_number)`. -/
def parensFindall (s : String) : List String :=
  parensFindallAux s.data none []

/-- Digit-run accumulator for `NUMBER_PATTERN.findall`, the regex `\d+`:
maximal runs of digits, each converted with `int`. -/
def natOfDigits (cs : List Char) : Nat :=
  cs.foldl (fun n c => 10 * n + (c.toNat - '0'.toNat)) 0

/-- Scanner for `NUMBER_PATTERN.findall` over a character list. -/
def numberFindallAux : List Char → List Char → List Nat
  | [], cur => if cur.isEmpty then [] else [natOfDigits cur.reverse]
  | c :: rest, cur =>
    if isDigit09 c then numberFindallAux rest (c :: cur)
    else if cur.isEmpty then numberFindallAux rest []
    else natOfDigits cur.reverse :: numberFindallAux rest []

/-- Embedding of `NUMBER_PATTERN.findall(s)`. -/
def numberFindall (s : String) : List Nat :=
  numberFindallAux s.data []

/-- Helper for `ARROW_NUM_PATTERN.search`: after a literal `-->`, the regex
`[^(]*` runs greedily to the first open parenthesis (it cannot cross one), so
the only candidate is the first parenthesized group after the arrow, which
must consist of one or more digits followed by a close parenthesis. -/
def tryArrowTail (cs : List Char) : Option Nat :=
  match cs.dropWhile (fun c => c ≠ '(') with
  | '(' :: cs2 =>
    match cs2.takeWhile isDigit09, cs2.dropWhile isDigit09 with
    | [], _ => none
    | d :: ds, ')' :: _ => some (natOfDigits (d :: ds))
    | _ :: _, _ => none
  | _ => none

/-- Embedding of `ARROW_NUM_PATTERN.search`, the regex `-->[^(]*\((\d+)\)`:
scan left to right for an occurrence of `-->` whose tail matches; `search`
restarts at the next position on failure, and a restart can only succeed at
a later `-->` occurrence. -/
def arrowNumSearch : List Char → Option Nat
  | [] => none
  | '-' :: '-' :: '>' :: rest =>
    match tryArrowTail rest with
    | some n => some n
    | none => arrowNumSearch ('-' :: '>' :: rest)
  | _ :: rest => arrowNumSearch rest

/-- Embedding of `NUM_IN_PARENS_PATTERN.search`, the regex `\((\d+)\)`: the
first open parenthesis immediately followed by one or more digits and a close
parenthesis. -/
def numInParensSearch : List Char → Option Nat
  | [] => none
  | '(' :: rest =>
    (match rest.takeWhile isDigit09, rest.dropWhile isDigit09 with
     | d :: ds, ')' :: _ => some (natOfDigits (d :: ds))
     | _, _ => numInParensSearch rest)
  | _ :: rest => numInParensSearch rest

/-- Month names and abbreviations checked by `extract_test_number`. -/
def monthNames : List String :=
  ["January", "February", "March", "April", "May", "June",
   "July", "August", "September", "October", "November", "December",
   "Jan", "Feb", "Mar", "Apr", "May", "Jun",
   "Jul", "Aug", "Sep", "Oct", "Nov", "Dec"]

/-- Prefix test on character lists (helper for the substring test). -/
def prefixMatches : List Char → List Char → Bool
  | [], _ => true
  | _ :: _, [] => false
  | p :: ps, c :: cs => p = c && prefixMatches ps cs

/-- Scan for an occurrence of `pat` at any position of the haystack. -/
def subScan (pat : List Char) : List Char → Bool
  | [] => pat.isEmpty
  | c :: rest => prefixMatches pat (c :: rest) || subScan pat rest

/-- Embedding of the Python substring test `pat in hay`. -/
def strContains (hay pat : String) : Bool :=
  subScan pat.data hay.data

/-- Embedding of `JiraDataProcessor.extract_test_number`.  The result is
`Option Nat`: `some n` models an `int` return and `none` models the implicit
Python `None` that the source returns when the content of the first
parenthesized group contains a dash but fewer than two integers (no branch of
the `if`/`elif` chain returns in that case).  The surrounding
`try`/`except` of the source cannot fire on any of the remaining paths, all
of which convert digit runs with `int`. -/
def extract_test_number (job_number : String) : Option Nat :=
  let numbers := parensFindall job_number
  match numbers with
  | [] => some 0
  | first :: _ =>
    if monthNames.any (fun m => strContains first m) then some 0
    else if strContains job_number "-->" then
      match arrowNumSearch job_number.data with
      | some n => some n
      | none =>
        match numInParensSearch job_number.data with
        | some n => some n
        | none => some 0
    else if first.data.contains '-' then
      match numberFindall (String.mk (first.data.takeWhile (fun c => c ≠ '='))) with
      | a :: b :: _ => some ((a : Int) - (b : Int)).natAbs
      | _ => none
    else if first.data.contains '+' then
      some (numberFindall first).sum
    else
      match numberFindall first with
      | n :: _ => some n
      | [] => some 0

/-! ## Issue processing (`process_issues`, lines 104-216) -/

/-- Embedding of the changelog walk of `process_issues` (lines 135-145): for
each history entry, for each item with `field == 'status'`, record the entry
timestamp and the from/to strings, in source order. -/
def extract_status_changes (changelog : List HistoryEntry) : List StatusChange :=
  (changelog.map (fun h => h.items.filterMap (fun item =>
    if item.field = "status" then
      some { date := h.created, from_status := item.fromString, to_status := item.toString }
    else none))).flatten

/-- Embedding of the location inference from labels (lines 147-154). -/
def issue_location (labels : List String) : String :=
  let ls := labels.map pyUpper
  if "YEG" ∈ ls then "Edmonton"
  else if "YUL" ∈ ls then "Montreal"
  else "Toronto"

/-- Row dict built by `process_issues` for a valid issue (lines 131-165). -/
def makeRow (issue : RawIssue) : Row :=
  { key := issue.key
    job_number := issue.summary
    status := issue.status
    created_date := issue.created
    stage := determine_stage issue.status
    status_changes := extract_status_changes (issue.changelog.getD [])
    location := issue_location issue.labels }

/-- Embedding of one iteration of the `process_issues` loop: `none` when the
issue is skipped as invalid (uppercase-start check at line 116 and regex check
at line 124, in that order), otherwise the dict appended to `processed_data`. -/
def processRow (issue : RawIssue) : Option Row :=
  if ¬ startsWithUpperAZ issue.summary then none
  else if ¬ matchJobPattern issue.summary then none
  else some (makeRow issue)

/-- The `processed_data` list of `process_issues`. -/
def processRows (issues : List RawIssue) : List Row :=
  issues.filterMap processRow

/-- The `invalid_jobs` diagnostics list of `process_issues`: key and summary
of every issue failing the validity check. -/
def invalid_jobs (issues : List RawIssue) : List (String × String) :=
  (issues.filter (fun i => ¬ is_valid_job_number i.summary)).map (fun i => (i.key, i.summary))

/-- Embedding of the `stage_priority` mapping (lines 183-188): the four listed
stages map to 0..3; `Other` is absent, which in pandas produces NaN and
`sort_values` places NaN rows last, modelled by priority 4. -/
def stage_priority (stage : String) : Nat :=
  if stage = "Open" then 0
  else if stage = "Sample Preparation" then 1
  else if stage = "Testing" then 2
  else if stage = "Report" then 3
  else 4

/-- The `other_status_priority` list (lines 171-180). -/
def other_status_priority : List String :=
  ["quotation", "in progress", "review", "reported", "invoiced", "on hold", "cancelled", "other"]

/-- Embedding of the `status_priority` column: index of the lowercased status
in `other_status_priority`, defaulting to its length (8). -/
def status_priority (status : String) : Nat :=
  match other_status_priority.findIdx? (fun s => s == pyLower status) with
  | some i => i
  | none => other_status_priority.length

/-- Sort key of `df.sort_values([stage_priority, status_priority,
created_date])`, as a boolean order on rows. -/
def row_sort_le (a b : Row) : Bool :=
  if stage_priority a.stage ≠ stage_priority b.stage then
    decide (stage_priority a.stage < stage_priority b.stage)
  else if status_priority a.status ≠ status_priority b.status then
    decide (status_priority a.status < status_priority b.status)
  else Timestamp.le a.created_date b.created_date

/-- Insertion step of the row sort. -/
def insertSorted (r : Row) : List Row → List Row
  | [] => [r]
  | x :: xs => if row_sort_le r x then r :: x :: xs else x :: insertSorted r xs

/-- Embedding of the `sort_values` call of `process_issues` (line 195).  The
pandas default sort is an unstable quicksort, so only the multiset of rows
and the key order are specified; an insertion sort realizes them. -/
def sortRows : List Row → List Row
  | [] => []
  | x :: xs => insertSorted x (sortRows xs)

/-- Embedding of `JiraDataProcessor.process_issues`.  When every issue is
skipped, `processed_data` is empty and `pd.DataFrame([])` has no columns, so
the column access `df[stage]` at line 191 raises `KeyError`; that exception
is modelled as `Except.error`. -/
def process_issues (issues : List RawIssue) : Except String (List Row) :=
  let rows := processRows issues
  if rows.isEmpty then Except.error "KeyError: stage"
  else Except.ok (sortRows rows)

/-! ## Summary views (lines 288-293) -/

/-- First-occurrence deduplication, modelling the distinct values over which
`value_counts` produces entries.  The order of entries of `value_counts`
(descending count) is irrelevant to every claim, which only reads the
resulting key-to-count mapping. -/
def dedupFirstAux : List String → List String → List String
  | [], _ => []
  | s :: rest, seen =>
    if s ∈ seen then dedupFirstAux rest seen
    else s :: dedupFirstAux rest (s :: seen)

/-- First-occurrence deduplication entry point. -/
def dedupFirst (l : List String) : List String :=
  dedupFirstAux l []

/-- Embedding of `get_total_issues`: `df[stage].value_counts().to_dict()`. -/
def get_total_issues (df : List Row) : List (String × Nat) :=
  (dedupFirst (df.map (fun r => r.stage))).map
    (fun s => (s, (df.filter (fun r => r.stage = s)).length))

/-- Embedding of `get_percentage_issues`:
`(df[stage].value_counts() / total * 100).to_dict()`, with the float division
modelled exactly over `Rat`. -/
def get_percentage_issues (df : List Row) : List (String × Rat) :=
  (dedupFirst (df.map (fun r => r.stage))).map
    (fun s => (s, ((df.filter (fun r => r.stage = s)).length : Rat) / (df.length : Rat) * 100))

/-- Embedding of `filter_issues` (lines 261-286): the body only prints; the
date bounds are deliberately not applied (the source comment says all
historical data is kept for cumulative counts), so the function is the
identity on the DataFrame. -/
def filter_issues (df : List Row) : List Row :=
  df

/-! ## Snapshot aggregation (`aggregate_data`, lines 404-447) -/

/-- The `STAGE_ORDER` constant of `aggregate_data` (line 410).  Note that
`Other` is not listed. -/
def STAGE_ORDER : List String :=
  ["Open", "Sample Preparation", "Testing", "Report"]

/-- Embedding of `sorted(relevant_changes, key=lambda x: x.date)[-1]`: the
last element of a stable ascending sort by timestamp, i.e. the maximal
timestamp, taking the latest-occurring entry on ties. -/
def lastChange (changes : List StatusChange) : Option StatusChange :=
  changes.foldl
    (fun acc c =>
      match acc with
      | none => some c
      | some a => if Timestamp.le a.date c.date then some c else some a)
    none

/-- Embedding of the per-issue stage reconstruction inside `aggregate_data`
(lines 425-434): start from the `stage` column (derived from the current
status by `process_issues`), and override it with the classifier applied to
the `to_status` of the last status change dated on or before `date`. -/
def effective_stage (issue : Row) (date : Nat) : String :=
  let relevant_changes := issue.status_changes.filter (fun c => c.date.day ≤ date)
  match lastChange relevant_changes with
  | some last_change => determine_stage last_change.to_status
  | none => issue.stage

/-- Dictionary update `stage_counts[current_stage] += count` on the
association-list model of the dict. -/
def updateCount (counts : List (String × Nat)) (stage : String) (k : Nat) : List (String × Nat) :=
  counts.map (fun p => if p.1 = stage then (p.1, p.2 + k) else p)

/-- Embedding of the per-date inner loop of `aggregate_data` (lines 418-442):
initialize `stage_counts = \x7bstage: 0 for stage in stages_to_show\x7d` (a dict
comprehension, hence first-occurrence deduplicated keys) and fold over the
issues.  Issues created after the date are skipped; an issue contributes only
when its effective stage is in `stages_to_show`; the contribution is 1 for
the whole-issue unit and `extract_test_number` for the `Test Number` unit.
When `extract_test_number` returns Python `None` (see the dash branch), the
source `+=` would raise `TypeError`; no claim exercises that path and the
model takes 0 there. -/
def agg_step (unit : String) (stages_to_show : List String) (date : Nat)
    (stage_counts : List (String × Nat)) (issue : Row) : List (String × Nat) :=
  if date < issue.created_date.day then stage_counts
  else
    let current_stage := effective_stage issue date
    if current_stage ∈ stages_to_show then
      let count := if unit = "Test Number" then (extract_test_number issue.job_number).getD 0 else 1
      updateCount stage_counts current_stage count
    else stage_counts

/-- Fold of `agg_step` over the DataFrame rows, from the zeroed dict. -/
def row_for_date (df : List Row) (unit : String) (stages_to_show : List String) (date : Nat) :
    List (String × Nat) :=
  df.foldl (agg_step unit stages_to_show date)
    ((dedupFirst stages_to_show).map (fun s => (s, 0)))

/-- Embedding of `JiraDataProcessor.aggregate_data` for a present date range:
one row per date of the range, with the stage columns `stages_to_show`
(`stages if stages else STAGE_ORDER`; the Python truthiness test sends both
`None` and the empty list to `STAGE_ORDER`). -/
def aggregate_data (df : List Row) (date_range : List Nat) (unit : String)
    (stages : Option (List String)) : List (Nat × List (String × Nat)) :=
  let stages_to_show :=
    match stages with
    | some (s :: rest) => s :: rest
    | _ => STAGE_ORDER
  date_range.map (fun d => (d, row_for_date df unit stages_to_show d))

/-- Lookup of a stage column inside one aggregated row. -/
def colCount : List (String × Nat) → String → Option Nat
  | [], _ => none
  | p :: rest, stage => if p.1 = stage then some p.2 else colCount rest stage

/-- Lookup of a date row inside the aggregated table. -/
def tableRow : List (Nat × List (String × Nat)) → Nat → Option (List (String × Nat))
  | [], _ => none
  | p :: rest, date => if p.1 = date then some p.2 else tableRow rest date

/-! ## Cache layer (`get_data`, lines 315-357) -/

/-- The `CACHE_DURATION` of three minutes, in seconds. -/
def CACHE_DURATION : Int := 180

/-- Cache state held on the processor: `_cached_issues` and
`_last_fetch_time` (both initialized to `None`). -/
structure CacheState where
  cached : Option (List RawIssue)
  lastFetch : Option Int
deriving DecidableEq, Repr

/-- Embedding of the refetch condition of `get_data` (lines 327-330):
`_cached_issues is None or _last_fetch_time is None or
current_time - _last_fetch_time > CACHE_DURATION or force_refresh`. -/
def shouldRefetch (st : CacheState) (now : Int) (force : Bool) : Bool :=
  st.cached.isNone ||
    (match st.lastFetch with
     | none => true
     | some t => decide (now - t > CACHE_DURATION)) ||
    force

/-- One `get_data` call viewed through the cache: returns the new cache
state, the issue list used for processing, and whether a fetch was issued.
The would-be fetch result is passed in as `fetched`. -/
def get_data_cache (st : CacheState) (now : Int) (force : Bool) (fetched : List RawIssue) :
    CacheState × List RawIssue × Bool :=
  if shouldRefetch st now force then
    ({ cached := some fetched, lastFetch := some now }, fetched, true)
  else
    (st, st.cached.getD [], false)

/-- Run a sequence of `get_data` calls (with `force_refresh=False`) from the
initial empty cache, counting issued fetches. -/
def run_get_data (calls : List Int) (fetched : List RawIssue) : CacheState × Nat :=
  calls.foldl
    (fun acc now =>
      let r := get_data_cache acc.1 now false fetched
      (r.1, acc.2 + if r.2.2 then 1 else 0))
    ({ cached := none, lastFetch := none }, 0)

/-- Result dictionary of `get_data` (lines 352-357). -/
structure GetDataResult where
  df : List Row
  total_issues : List (String × Nat)
  percentage_issues : List (String × Rat)
  aggregated_data : List (Nat × List (String × Nat))
deriving DecidableEq, Repr

/-- Embedding of the processing part of `get_data` (lines 339-357): process
the cached issues, apply the location filter when `locations` is truthy,
apply `filter_issues` (identity), and build the result dictionary.  The
`KeyError` from `process_issues` propagates: `get_data` has no handler. -/
def get_data_result (issues : List RawIssue) (date_range : List Nat) (unit : String)
    (stages : Option (List String)) (locations : Option (List String)) :
    Except String GetDataResult :=
  match process_issues issues with
  | Except.error e => Except.error e
  | Except.ok df0 =>
    let df1 :=
      match locations with
      | some (l :: ls) => df0.filter (fun r => r.location ∈ l :: ls)
      | _ => df0
    let filtered_df := filter_issues df1
    Except.ok
      { df := filtered_df
        total_issues := get_total_issues filtered_df
        percentage_issues := get_percentage_issues filtered_df
        aggregated_data := aggregate_data filtered_df date_range unit stages }

/-! ## Issue fetching (`fetch_issues`, lines 41-102) -/

/-- Embedding of the query augmentation (lines 49-50). -/
def augment_query (jql_query : String) : String :=
  let base_query := jql_query.replace " ORDER BY created DESC" ""
  base_query ++ " AND parent IS EMPTY AND labels in (CIPP) AND created >= \"2024-01-01\" ORDER BY created DESC"

/-- Response of the server to one page request: either a JSON body with an
issue list and the server-reported total, or a transport/server error (a
failing `requests.get`, a non-2xx status raised by `raise_for_status`, or a
malformed body). -/
inductive PageResult where
  | ok (issues : List RawIssue) (total : Nat)
  | err (msg : String)
deriving DecidableEq, Repr

/-- Embedding of the pagination loop of `fetch_issues` (lines 56-93): one
script entry is consumed per request.  An error breaks the loop and the
accumulated issues are returned (the `except` clause prints and breaks); an
empty page breaks; reaching the reported total breaks; otherwise `start_at`
advances by the page length and the loop continues.  A finite script models a
finite execution; an exhausted script is the point where the run stops being
observed and is treated like a transport failure. -/
def fetch_loop : List PageResult → List RawIssue → Nat → List RawIssue
  | [], all_issues, _ => all_issues
  | PageResult.err _ :: _, all_issues, _ => all_issues
  | PageResult.ok issues total :: rest, all_issues, start_at =>
    if issues.isEmpty then all_issues
    else
      let acc := all_issues ++ issues
      if total ≤ acc.length then acc
      else fetch_loop rest acc (start_at + issues.length)

/-- Embedding of `fetch_issues`: `if not self.JIRA_URL: raise ValueError`
(the unset URL is the falsy empty string), otherwise run the pagination loop
from an empty accumulator and offset 0. -/
def fetch_issues (jira_url : String) (script : List PageResult) : Except String (List RawIssue) :=
  if jira_url = "" then Except.error "JIRA_URL is not set"
  else Except.ok (fetch_loop script [] 0)

/-! ## Rate limiter (rate_limiter.py) -/

/-- Constructor default `requests_per_minute=50`. -/
def requests_per_minute : Nat := 50

/-- Constructor default `buffer = int(50 * 0.1) = 5`. -/
def rate_buffer : Nat := 5

/-- Eviction filter shared by `wait_if_needed` and `get_current_usage`: keep
`req_time > now - 60 seconds`. -/
def evictOld (requests : List Int) (now : Int) : List Int :=
  requests.filter (fun t => now - 60 < t)

/-- Result of one `wait_if_needed` call: the new timestamp window and the
duration passed to `time.sleep` (0 when no sleep happens). -/
structure WaitResult where
  requests : List Int
  sleep_time : Int
deriving DecidableEq, Repr

/-- Embedding of `RateLimiter.wait_if_needed` (lines 26-43), with time in
integer seconds: evict entries older than one minute; if the remaining window
has at least `requests_per_minute - buffer` entries, sleep until the first
window entry leaves the window (`oldest + 60 - now`, when positive); then
append the pre-sleep `now`.  The empty-window branch of the match is
unreachable (the threshold 45 is positive) and returns no sleep. -/
def wait_if_needed (requests : List Int) (now : Int) : WaitResult :=
  let reqs := evictOld requests now
  if requests_per_minute - rate_buffer ≤ reqs.length then
    match reqs with
    | [] => { requests := reqs ++ [now], sleep_time := 0 }
    | oldest_request :: _ =>
      let sleep := oldest_request + 60 - now
      { requests := reqs ++ [now], sleep_time := if 0 < sleep then sleep else 0 }
  else { requests := reqs ++ [now], sleep_time := 0 }

/-- Observability record returned by `get_current_usage`. -/
structure Usage where
  current_requests : Nat
  limit : Nat
  remaining : Int
  buffer : Nat
deriving DecidableEq, Repr

/-- Embedding of `RateLimiter.get_current_usage` (lines 51-62). -/
def get_current_usage (requests : List Int) (now : Int) : Usage :=
  let current := (requests.filter (fun t => now - 60 < t)).length
  { current_requests := current
    limit := requests_per_minute
    remaining := (requests_per_minute : Int) - (current : Int)
    buffer := rate_buffer }

/-- Reachable limiter states under single-threaded use.  A state is the
timestamp window `w` together with a lower bound `tmin` on the time of the
next interaction: calls are issued sequentially, each at a time no earlier
than the completion (including the sleep) of the previous one. -/
inductive Reachable : List Int → Int → Prop where
  | init : ∀ t : Int, Reachable [] t
  | step : ∀ (w : List Int) (tmin now : Int), tmin ≤ now → Reachable w tmin →
      Reachable (wait_if_needed w now).requests (now + (wait_if_needed w now).sleep_time)

/-! ## Helper lemmas -/

/-- One `get_data` call issues a fetch exactly when the refetch condition
holds. -/
theorem get_data_cache_didFetch (st : CacheState) (now : Int) (force : Bool)
    (fetched : List RawIssue) :
    (get_data_cache st now force fetched).2.2 = shouldRefetch st now force := by
  unfold get_data_cache
  split <;> simp_all

/-! ## Claim C5 -/

/-- C5: `extract_test_number` satisfies the five specified vectors: 6 for a
plain parenthesized number, 6 for the dash form (absolute difference), 6 for
the plus form (sum), 0 for a calendar-month content, and 9 for the arrow form
(preferring the number after the arrow). -/
theorem c5_extract_test_number_vectors :
    extract_test_number "ABCD1234.5 (6)" = some 6 ∧
    extract_test_number "ABCD1234.5 (9-3)" = some 6 ∧
    extract_test_number "ABCD1234.5 (3+3)" = some 6 ∧
    extract_test_number "ABCD1234.5 (May 2024)" = some 0 ∧
    extract_test_number "ABCD1234.5 (4) --> (9)" = some 9 := by
  refine ⟨?_, ?_, ?_, ?_, ?_⟩ <;> decide

/-! ## Claim C4 -/

/-- C4: the claim that `extract_test_number` returns an integer for every
input fails on the source: when the first parenthesized content contains a
dash but fewer than two integers, no branch of the `if`/`elif` chain returns
and the Python function falls through to an implicit `None` (modelled as
`none`), contradicting its own `-> int` annotation.  The failing input even
passes the job-number validity check, so with the test-count unit it reaches
the aggregation `+=`, which would raise `TypeError`. -/
theorem c4_dash_branch_returns_none :
    extract_test_number "ABCD1234.5 (-)" = none ∧
    is_valid_job_number "ABCD1234.5 (-)" = true := by
  exact ⟨by decide, by decide⟩

/-! ## Claim C6 -/

/-- C6: `get_data` refetches exactly when the cache is empty, the elapsed
time since the last fetch exceeds the three-minute TTL, or `force_refresh`
is set (stated for consistent cache states, where the cached list and the
fetch timestamp are absent together, as in every reachable state); and two
calls within the TTL issue one fetch while a third call past the TTL issues
a second. -/
theorem c6_cache_refetch_iff :
    (∀ (st : CacheState) (now : Int) (force : Bool) (fetched : List RawIssue),
      (st.cached = none ↔ st.lastFetch = none) →
      ((get_data_cache st now force fetched).2.2 = true ↔
        (st.cached = none ∨ (∃ t, st.lastFetch = some t ∧ now - t > CACHE_DURATION) ∨
          force = true))) ∧
    (∀ (t0 t1 t2 : Int) (fetched : List RawIssue),
      t1 - t0 ≤ CACHE_DURATION → t2 - t0 > CACHE_DURATION →
      (run_get_data [t0, t1] fetched).2 = 1 ∧ (run_get_data [t0, t1, t2] fetched).2 = 2) := by
  constructor
  · rintro ⟨c, tf⟩ now force fetched hcons
    rw [get_data_cache_didFetch]
    cases c <;> cases tf <;> simp_all [shouldRefetch]
  · intro t0 t1 t2 fetched h1 h2
    have hd1 : decide (t1 - t0 > CACHE_DURATION) = false := decide_eq_false (by omega)
    have hd2 : decide (t2 - t0 > CACHE_DURATION) = true := decide_eq_true h2
    constructor <;>
      simp [run_get_data, get_data_cache, shouldRefetch, hd1, hd2]

/-! ## Claim C7 -/

/-- C7: `fetch_issues` raises the configuration error exactly when the base
address is unset; otherwise it runs the pagination loop, which stops
returning the accumulated issues exactly on an error page (partial-result
tolerance), an empty page, or when the running total reaches the reported
total, and otherwise continues at the offset advanced by the page length. -/
theorem c7_fetch_issues_behavior :
    (∀ script, fetch_issues "" script = Except.error "JIRA_URL is not set") ∧
    (∀ url script, url ≠ "" → fetch_issues url script = Except.ok (fetch_loop script [] 0)) ∧
    (∀ msg rest acc start_at, fetch_loop (PageResult.err msg :: rest) acc start_at = acc) ∧
    (∀ total rest acc start_at, fetch_loop (PageResult.ok [] total :: rest) acc start_at = acc) ∧
    (∀ issues total rest acc start_at, issues ≠ [] → total ≤ (acc ++ issues).length →
      fetch_loop (PageResult.ok issues total :: rest) acc start_at = acc ++ issues) ∧
    (∀ issues total rest acc start_at, issues ≠ [] → (acc ++ issues).length < total →
      fetch_loop (PageResult.ok issues total :: rest) acc start_at =
        fetch_loop rest (acc ++ issues) (start_at + issues.length)) := by
  refine ⟨?_, ?_, ?_, ?_, ?_, ?_⟩
  · intro script; simp [fetch_issues]
  · intro url script h; simp [fetch_issues, h]
  · intro msg rest acc start_at; rfl
  · intro total rest acc start_at; simp [fetch_loop]
  · intro issues total rest acc start_at hne hle
    cases issues with
    | nil => exact absurd rfl hne
    | cons a as =>
      have hle2 : total ≤ acc.length + (as.length + 1) := by simpa using hle
      simp [fetch_loop, hle2]
  · intro issues total rest acc start_at hne hlt
    cases issues with
    | nil => exact absurd rfl hne
    | cons a as =>
      have hlt2 : ¬ total ≤ acc.length + (as.length + 1) := by
        simp at hlt; omega
      simp [fetch_loop, hlt2]

/-- Witness for C6: calls at seconds 0 and 60 share one fetch; a third call
at second 300 (elapsed 300 > 180) fetches again. -/
theorem c6_witness :
    (run_get_data [0, 60] []).2 = 1 ∧ (run_get_data [0, 60, 300] []).2 = 2 :=
  c6_cache_refetch_iff.2 0 60 300 [] (by decide) (by decide)

/-- Issue literal for the C7 witness. -/
def c7Issue : RawIssue :=
  { key := "K"
    summary := "ABCD0001.1 (1)"
    status := "Open"
    created := ⟨1, 0⟩
    labels := []
    changelog := none }

/-- Witness for C7: a single full page reaching the reported total stops the
loop with that page accumulated. -/
theorem c7_witness :
    fetch_loop [PageResult.ok [c7Issue] 1] [] 0 = [] ++ [c7Issue] :=
  c7_fetch_issues_behavior.2.2.2.2.1 [c7Issue] 1 [] [] 0 (by decide) (by decide)

/-! ## Claim C1 -/

/-- Raw issue of the spec example: created on 2024-01-05 (day 5), a single
status change to a Testing-mapped status on 2024-01-10 (day 10), hence a
fetch-time status of `Testing`; the creation-time status is the `fromString`
of that only change, `Open`. -/
def c1Issue : RawIssue :=
  { key := "JOB-1"
    summary := "ABCD1234.5 (6)"
    status := "Testing"
    created := ⟨5, 0⟩
    labels := []
    changelog := some [⟨⟨10, 0⟩, [⟨"status", "Open", "Testing"⟩]⟩] }

/-- Row produced by `process_issues` for `c1Issue`. -/
def c1Row : Row :=
  { key := "JOB-1"
    job_number := "ABCD1234.5 (6)"
    status := "Testing"
    created_date := ⟨5, 0⟩
    stage := "Testing"
    status_changes := [⟨⟨10, 0⟩, "Open", "Testing"⟩]
    location := "Toronto" }

/-- C1 fails on the source: for the spec example issue (created day 5,
creation-time stage `Open`, only change to `Testing` on day 10), the snapshot
row for day 7 has no qualifying change, and `aggregate_data` falls back to
the `stage` column — which `process_issues` computed from the *current*
status, `Testing` — so the day-7 row counts the issue under `Testing`
(count 1) and under the creation stage `Open` it counts 0, while the claim
requires the creation-time stage to hold it. -/
theorem c1_counterexample :
    process_issues [c1Issue] = Except.ok [c1Row] ∧
    aggregate_data [c1Row] [7, 12] "Job Number" none =
      [(7, [("Open", 0), ("Sample Preparation", 0), ("Testing", 1), ("Report", 0)]),
       (12, [("Open", 0), ("Sample Preparation", 0), ("Testing", 1), ("Report", 0)])] ∧
    determine_stage "Open" = "Open" := by
  exact ⟨by decide, by decide, by decide⟩

/-- C1 amended: when every status change of an issue is dated after the
evaluation date (no qualifying changes), `aggregate_data` counts the issue
under the `stage` column of its row, i.e. the stage derived from its current
fetch-time status — not its creation-time stage.  In the spec example, both
the day-7 and the day-12 rows therefore count the issue under `Testing`. -/
theorem c1_no_qualifying_changes (r : Row) (d : Nat)
    (h : ∀ c ∈ r.status_changes, d < c.date.day) :
    effective_stage r d = r.stage := by
  have hfil : r.status_changes.filter (fun c => decide (c.date.day ≤ d)) = [] :=
    List.filter_eq_nil_iff.mpr (fun c hc => by simpa using Nat.not_le.mpr (h c hc))
  unfold effective_stage
  rw [hfil]
  rfl

/-- Witness for C1: the example row at day 7 (its only change is dated day
10), evaluated through the amended theorem. -/
theorem c1_witness : effective_stage c1Row 7 = c1Row.stage :=
  c1_no_qualifying_changes c1Row 7 (by decide)

/-! ## Claim C10 -/

/-- Invalid summaries are skipped before any row is built. -/
theorem processRow_eq_none (i : RawIssue) (h : is_valid_job_number i.summary = false) :
    processRow i = none := by
  unfold processRow
  unfold is_valid_job_number at h
  cases hs : startsWithUpperAZ i.summary with
  | false => simp [hs]
  | true =>
    cases hm : matchJobPattern i.summary with
    | false => simp [hs, hm]
    | true => rw [hs, hm] at h; simp at h

/-- C10: when the fetched list is empty or every summary fails the validity
check, `processed_data` stays empty, `pd.DataFrame([])` has no `stage`
column, and `process_issues` raises `KeyError` at the priority-mapping line;
`get_data` has no handler, so the call errors instead of returning zero-count
rows. -/
theorem c10_empty_or_all_invalid_errors (issues : List RawIssue)
    (h : issues = [] ∨ ∀ i ∈ issues, is_valid_job_number i.summary = false)
    (date_range : List Nat) (unit : String) (stages : Option (List String))
    (locations : Option (List String)) :
    process_issues issues = Except.error "KeyError: stage" ∧
    get_data_result issues date_range unit stages locations =
      Except.error "KeyError: stage" := by
  have hrows : processRows issues = [] := by
    rcases h with h | h
    · subst h; rfl
    · exact List.filterMap_eq_nil_iff.mpr (fun i hi => processRow_eq_none i (h i hi))
  have h1 : process_issues issues = Except.error "KeyError: stage" := by
    simp [process_issues, hrows]
  exact ⟨h1, by simp [get_data_result, h1]⟩

/-- Witness for C10: the empty fetch result errors through the pipeline. -/
theorem c10_witness :
    process_issues ([] : List RawIssue) = Except.error "KeyError: stage" ∧
    get_data_result [] [] "Job Number" none none = Except.error "KeyError: stage" :=
  c10_empty_or_all_invalid_errors [] (Or.inl rfl) [] "Job Number" none none

/-! ## Aggregation lemmas -/

/-- Number of DataFrame rows created on or before `d` whose effective stage
on `d` is `s`; proved below to be the value of the corresponding
`aggregate_data` cell. -/
def countIssues (df : List Row) (d : Nat) (s : String) : Nat :=
  df.countP (fun r => decide (r.created_date.day ≤ d) && decide (effective_stage r d = s))

/-- Deduplication only keeps elements of the original list. -/
theorem dedupFirstAux_sub (l : List String) :
    ∀ (seen : List String) (s : String), s ∈ dedupFirstAux l seen → s ∈ l := by
  induction l with
  | nil => intro seen s h; cases h
  | cons a t ih =>
    intro seen s h
    unfold dedupFirstAux at h
    by_cases hm : a ∈ seen
    · rw [if_pos hm] at h
      exact List.mem_cons_of_mem a (ih seen s h)
    · rw [if_neg hm] at h
      rcases List.mem_cons.mp h with h1 | h1
      · exact h1 ▸ List.mem_cons_self a t
      · exact List.mem_cons_of_mem a (ih (a :: seen) s h1)

/-- Membership transfer for `dedupFirst`. -/
theorem mem_of_mem_dedupFirst (l : List String) (s : String) (h : s ∈ dedupFirst l) : s ∈ l :=
  dedupFirstAux_sub l [] s h

/-- Folding the whole-issue aggregation step over the rows adds, to every
column of the dict, the number of rows counted under that column. -/
theorem agg_foldl_count (d : Nat) (S : List String) (df : List Row) :
    ∀ (c : List (String × Nat)), (∀ p ∈ c, p.1 ∈ S) →
      df.foldl (agg_step "Job Number" S d) c =
        c.map (fun p => (p.1, p.2 + countIssues df d p.1)) := by
  induction df with
  | nil =>
    intro c hc
    simp [countIssues]
  | cons r t ih =>
    intro c hc
    rw [List.foldl_cons]
    by_cases hcre : d < r.created_date.day
    · have hstep : agg_step "Job Number" S d c r = c := by
        unfold agg_step; rw [if_pos hcre]
      rw [hstep, ih c hc]
      apply List.map_congr_left
      intro p hp
      have hcnt : countIssues (r :: t) d p.1 = countIssues t d p.1 := by
        unfold countIssues
        rw [List.countP_cons]
        have hn : ¬ r.created_date.day ≤ d := by omega
        simp [hn]
      rw [hcnt]
    · push_neg at hcre
      by_cases hmem : effective_stage r d ∈ S
      · have hstep : agg_step "Job Number" S d c r =
            updateCount c (effective_stage r d) 1 := by
          unfold agg_step
          rw [if_neg (by omega)]
          simp [hmem]
        rw [hstep]
        have hkeys : ∀ p ∈ updateCount c (effective_stage r d) 1, p.1 ∈ S := by
          intro p hp
          unfold updateCount at hp
          obtain ⟨q, hq, hpq⟩ := List.mem_map.mp hp
          have hp1 : p.1 = q.1 := by
            by_cases h : q.1 = effective_stage r d
            · rw [if_pos h] at hpq; rw [← hpq]
            · rw [if_neg h] at hpq; rw [← hpq]
          rw [hp1]; exact hc q hq
        rw [ih _ hkeys]
        unfold updateCount
        rw [List.map_map]
        apply List.map_congr_left
        intro q hq
        by_cases h : q.1 = effective_stage r d
        · have hcnt : countIssues (r :: t) d q.1 = countIssues t d q.1 + 1 := by
            unfold countIssues
            rw [List.countP_cons]
            have hx : (decide (r.created_date.day ≤ d) &&
                decide (effective_stage r d = q.1)) = true := by
              simp [hcre, h]
            simp [hx]
          simp only [Function.comp, if_pos h, hcnt, Prod.mk.injEq]
          exact ⟨trivial, by omega⟩
        · have hcnt : countIssues (r :: t) d q.1 = countIssues t d q.1 := by
            unfold countIssues
            rw [List.countP_cons]
            have hx : decide (effective_stage r d = q.1) = false :=
              decide_eq_false (fun h2 => h h2.symm)
            simp [hx]
          simp only [Function.comp, if_neg h, hcnt]
      · have hstep : agg_step "Job Number" S d c r = c := by
          unfold agg_step
          rw [if_neg (by omega)]
          simp [hmem]
        rw [hstep, ih c hc]
        apply List.map_congr_left
        intro p hp
        have hcnt : countIssues (r :: t) d p.1 = countIssues t d p.1 := by
          unfold countIssues
          rw [List.countP_cons]
          have hx : decide (effective_stage r d = p.1) = false :=
            decide_eq_false (fun h2 => hmem (h2 ▸ hc p hp))
          simp [hx]
        rw [hcnt]

/-- Closed form of one aggregated row under the whole-issue unit: one column
per (deduplicated) stage in scope, holding the count of issues whose
effective stage is that column. -/
theorem row_for_date_count (df : List Row) (S : List String) (d : Nat) :
    row_for_date df "Job Number" S d =
      (dedupFirst S).map (fun s => (s, countIssues df d s)) := by
  have hkeys : ∀ p ∈ (dedupFirst S).map (fun s => (s, (0 : Nat))), p.1 ∈ S := by
    intro p hp
    obtain ⟨s, hs, rfl⟩ := List.mem_map.mp hp
    exact mem_of_mem_dedupFirst S s hs
  unfold row_for_date
  rw [agg_foldl_count d S df _ hkeys, List.map_map]
  apply List.map_congr_left
  intro s hs
  simp [Function.comp]

/-- Partition of the counted issues over the four displayed stages. -/
theorem countIssues_partition (df : List Row) (d : Nat) :
    countIssues df d "Open" + countIssues df d "Sample Preparation" +
      countIssues df d "Testing" + countIssues df d "Report" =
      df.countP (fun r =>
        decide (r.created_date.day ≤ d) && decide (effective_stage r d ∈ STAGE_ORDER)) := by
  induction df with
  | nil => rfl
  | cons r t ih =>
    unfold countIssues at *
    simp only [List.countP_cons]
    by_cases hcre : r.created_date.day ≤ d
    · by_cases hmem : effective_stage r d ∈ STAGE_ORDER
      · have hm : effective_stage r d = "Open" ∨ effective_stage r d = "Sample Preparation" ∨
            effective_stage r d = "Testing" ∨ effective_stage r d = "Report" := by
          simpa [STAGE_ORDER] using hmem
        rcases hm with h | h | h | h
        · rw [h]
          have hms : decide (("Open" : String) ∈ STAGE_ORDER) = true := by decide
          simp [hcre, hms]
          omega
        · rw [h]
          have hms : decide (("Sample Preparation" : String) ∈ STAGE_ORDER) = true := by decide
          simp [hcre, hms]
          omega
        · rw [h]
          have hms : decide (("Testing" : String) ∈ STAGE_ORDER) = true := by decide
          simp [hcre, hms]
          omega
        · rw [h]
          have hms : decide (("Report" : String) ∈ STAGE_ORDER) = true := by decide
          simp [hcre, hms]
          omega
      · have hm : effective_stage r d ≠ "Open" ∧ effective_stage r d ≠ "Sample Preparation" ∧
            effective_stage r d ≠ "Testing" ∧ effective_stage r d ≠ "Report" := by
          simpa [STAGE_ORDER] using hmem
        obtain ⟨h1, h2, h3, h4⟩ := hm
        have hms : decide (effective_stage r d ∈ STAGE_ORDER) = false := decide_eq_false hmem
        simp [h1, h2, h3, h4, hms]
        omega
    · have hc : decide (r.created_date.day ≤ d) = false := decide_eq_false hcre
      simp [hc]
      omega

/-- Column lookup in a row built by mapping over a key list. -/
theorem colCount_map_keys (keys : List String) (f : String → Nat) (s : String) (hs : s ∈ keys) :
    colCount (keys.map (fun k => (k, f k))) s = some (f s) := by
  induction keys with
  | nil => cases hs
  | cons k t ih =>
    by_cases hk : k = s
    · subst hk
      simp [colCount]
    · rcases List.mem_cons.mp hs with h | h
      · exact absurd h.symm hk
      · simp only [List.map_cons, colCount]
        rw [if_neg hk]
        exact ih h

/-- Rows found in the aggregated table (with no stage filter) are the
per-date rows over `STAGE_ORDER`. -/
theorem tableRow_agg_none (df : List Row) (dates : List Nat) (unit : String) (d : Nat)
    (row : List (String × Nat))
    (h : tableRow (aggregate_data df dates unit none) d = some row) :
    row = row_for_date df unit STAGE_ORDER d := by
  have hagg : aggregate_data df dates unit none =
      dates.map (fun x => (x, row_for_date df unit STAGE_ORDER x)) := rfl
  rw [hagg] at h
  clear hagg
  induction dates with
  | nil => simp [tableRow] at h
  | cons a t ih =>
    simp only [List.map_cons] at h
    unfold tableRow at h
    split at h
    · rename_i hcond
      injection h with h'
      have ha : a = d := hcond
      rw [← h', ha]
    · exact ih h

/-- Membership for the maximum extraction of `lastChange`. -/
theorem lastChange_foldl_mem (l : List StatusChange) :
    ∀ (acc : Option StatusChange) (c : StatusChange),
      l.foldl
        (fun acc c =>
          match acc with
          | none => some c
          | some a => if Timestamp.le a.date c.date then some c else some a) acc = some c →
      c ∈ l ∨ acc = some c := by
  induction l with
  | nil => intro acc c h; exact Or.inr h
  | cons a t ih =>
    intro acc c h
    rw [List.foldl_cons] at h
    rcases ih _ c h with h1 | h1
    · exact Or.inl (List.mem_cons_of_mem a h1)
    · cases acc with
      | none =>
        injection h1 with h2
        exact Or.inl (h2 ▸ List.mem_cons_self a t)
      | some b =>
        dsimp only at h1
        split at h1
        · injection h1 with h2
          exact Or.inl (h2 ▸ List.mem_cons_self a t)
        · injection h1 with h2
          exact Or.inr (by rw [h2])

/-- The change selected by `lastChange` belongs to the candidate list. -/
theorem lastChange_mem (l : List StatusChange) (c : StatusChange) (h : lastChange l = some c) :
    c ∈ l := by
  unfold lastChange at h
  rcases lastChange_foldl_mem l none c h with h1 | h1
  · exact h1
  · cases h1

/-- When no status change of a row alters its classification, the effective
stage equals the `stage` column on every date. -/
theorem effective_stage_of_const (r : Row) (d : Nat)
    (h : ∀ c ∈ r.status_changes, determine_stage c.to_status = r.stage) :
    effective_stage r d = r.stage := by
  cases hl : lastChange (r.status_changes.filter (fun c => decide (c.date.day ≤ d))) with
  | none =>
    unfold effective_stage
    dsimp only
    rw [hl]
  | some c =>
    unfold effective_stage
    dsimp only
    rw [hl]
    exact h c (List.mem_of_mem_filter (lastChange_mem _ c hl))

/-! ## Claim C2 -/

/-- Row of an issue whose status `cancelled` classifies to `Other`, created
on day 5 (`stage` agrees with the classifier on the status, as
`process_issues` guarantees). -/
def c2Row : Row :=
  { key := "JOB-2"
    job_number := "WXYZ0007.2 (12)"
    status := "cancelled"
    created_date := ⟨5, 0⟩
    stage := "Other"
    status_changes := []
    location := "Toronto" }

/-- C2 fails on the source: with no stage filter, `aggregate_data` only
produces columns for `STAGE_ORDER`, which omits `Other`; an issue created on
day 5 with effective stage `Other` is counted in no column of the day-7 row,
so the row sums to 0 although one issue was created on or before day 7. -/
theorem c2_counterexample :
    aggregate_data [c2Row] [7] "Job Number" none =
      [(7, [("Open", 0), ("Sample Preparation", 0), ("Testing", 0), ("Report", 0)])] ∧
    (([(("Open" : String), (0 : Nat)), ("Sample Preparation", 0), ("Testing", 0),
        ("Report", 0)].map (fun q => q.2)).sum = 0) ∧
    ([c2Row] : List Row).countP (fun r => decide (r.created_date.day ≤ 7)) = 1 ∧
    c2Row.stage = determine_stage c2Row.status := by
  exact ⟨by decide, by decide, by decide, by decide⟩

/-- C2 amended: in every row of the table produced by `aggregate_data` with
the whole-issue unit and no stage filter, the sum across the stage columns
equals the number of issues created on or before the row date whose
effective stage on that date is one of the four displayed stages (issues
whose effective stage is `Other` are counted in no column). -/
theorem c2_row_sum_displayed (df : List Row) (dates : List Nat)
    (p : Nat × List (String × Nat))
    (hp : p ∈ aggregate_data df dates "Job Number" none) :
    (p.2.map (fun q => q.2)).sum =
      df.countP (fun r =>
        decide (r.created_date.day ≤ p.1) && decide (effective_stage r p.1 ∈ STAGE_ORDER)) := by
  have hagg : aggregate_data df dates "Job Number" none =
      dates.map (fun x => (x, row_for_date df "Job Number" STAGE_ORDER x)) := rfl
  rw [hagg] at hp
  obtain ⟨d, hd, rfl⟩ := List.mem_map.mp hp
  have hdd : dedupFirst STAGE_ORDER = STAGE_ORDER := by decide
  have hrow : row_for_date df "Job Number" STAGE_ORDER d =
      STAGE_ORDER.map (fun s => (s, countIssues df d s)) := by
    rw [row_for_date_count, hdd]
  show ((row_for_date df "Job Number" STAGE_ORDER d).map (fun q => q.2)).sum =
      df.countP (fun r =>
        decide (r.created_date.day ≤ d) && decide (effective_stage r d ∈ STAGE_ORDER))
  rw [hrow]
  have hpart := countIssues_partition df d
  simp only [STAGE_ORDER, List.map_cons, List.map_nil, List.sum_cons, List.sum_nil] at hpart ⊢
  omega

/-- Witness for C2: the amended sum identity evaluated on the empty frame at
day 3. -/
theorem c2_witness :
    (([(("Open" : String), (0 : Nat)), ("Sample Preparation", 0), ("Testing", 0),
       ("Report", 0)].map (fun q => q.2)).sum =
      ([] : List Row).countP (fun r =>
        decide (r.created_date.day ≤ 3) && decide (effective_stage r 3 ∈ STAGE_ORDER))) :=
  c2_row_sum_displayed [] [3]
    (3, [("Open", 0), ("Sample Preparation", 0), ("Testing", 0), ("Report", 0)]) (by decide)

/-! ## Claim C9 -/

/-- Row of an issue created on day 0 whose classification moves strictly
forward: a change to `Open` on day 1 and a change to `Testing` on day 10
(current status `Testing`); it never returns to an earlier classification. -/
def c9Row : Row :=
  { key := "JOB-3"
    job_number := "EFGH0001.1 (2)"
    status := "Testing"
    created_date := ⟨0, 0⟩
    stage := "Testing"
    status_changes := [⟨⟨1, 0⟩, "Quotation", "Open"⟩, ⟨⟨10, 0⟩, "Open", "Testing"⟩]
    location := "Toronto" }

/-- C9 fails on the source: for the forward-moving issue `c9Row` (no status
change ever reverts its classification; the only moves are to `Open` and
then to the strictly later stage `Testing`), the `Open` column of the
cumulative table drops from 1 on day 5 to 0 on day 15, violating the claimed
monotonicity for D1 = 5 < D2 = 15. -/
theorem c9_counterexample :
    aggregate_data [c9Row] [5, 15] "Job Number" none =
      [(5, [("Open", 1), ("Sample Preparation", 0), ("Testing", 0), ("Report", 0)]),
       (15, [("Open", 0), ("Sample Preparation", 0), ("Testing", 1), ("Report", 0)])] ∧
    stage_priority (determine_stage "Open") < stage_priority (determine_stage "Testing") ∧
    (5 : Nat) < 15 := by
  exact ⟨by decide, by decide, by decide⟩

/-- C9 amended: per-stage cumulative counts are monotone over dates for
DataFrames none of whose status changes alters the classification of its
issue (each change maps to the stage the issue already shows); a forward
move between distinct stages already breaks monotonicity of the source
column, as the counterexample shows. -/
theorem c9_monotone_const_classification (df : List Row) (dates : List Nat) (d1 d2 : Nat)
    (row1 row2 : List (String × Nat)) (s : String)
    (h12 : d1 ≤ d2)
    (hstay : ∀ r ∈ df, ∀ c ∈ r.status_changes, determine_stage c.to_status = r.stage)
    (h1 : tableRow (aggregate_data df dates "Job Number" none) d1 = some row1)
    (h2 : tableRow (aggregate_data df dates "Job Number" none) d2 = some row2)
    (hs : s ∈ STAGE_ORDER) :
    (colCount row1 s).getD 0 ≤ (colCount row2 s).getD 0 := by
  have e1 := tableRow_agg_none df dates "Job Number" d1 row1 h1
  have e2 := tableRow_agg_none df dates "Job Number" d2 row2 h2
  have hdd : dedupFirst STAGE_ORDER = STAGE_ORDER := by decide
  have hc1 : colCount row1 s = some (countIssues df d1 s) := by
    rw [e1, row_for_date_count, hdd]
    exact colCount_map_keys STAGE_ORDER _ s hs
  have hc2 : colCount row2 s = some (countIssues df d2 s) := by
    rw [e2, row_for_date_count, hdd]
    exact colCount_map_keys STAGE_ORDER _ s hs
  rw [hc1, hc2]
  simp only [Option.getD_some]
  unfold countIssues
  apply List.countP_mono_left
  intro r hr hp
  obtain ⟨ha, hb⟩ := (Bool.and_eq_true _ _).mp hp
  have ha' : r.created_date.day ≤ d1 := of_decide_eq_true ha
  have hb' : effective_stage r d1 = s := of_decide_eq_true hb
  have hd2 : r.created_date.day ≤ d2 := by omega
  have he2 : effective_stage r d2 = s := by
    rw [effective_stage_of_const r d2 (hstay r hr)]
    rw [effective_stage_of_const r d1 (hstay r hr)] at hb'
    exact hb'
  simp [hd2, he2]

/-- Witness for C9: a one-row frame whose single change maps to the stage
already shown, evaluated at days 7 and 12. -/
def c9StayRow : Row :=
  { key := "JOB-4"
    job_number := "EFGH0002.1 (3)"
    status := "Testing"
    created_date := ⟨5, 0⟩
    stage := "Testing"
    status_changes := [⟨⟨10, 0⟩, "Testing", "Testing"⟩]
    location := "Toronto" }

/-- Witness for C9 at a concrete monotone instance. -/
theorem c9_witness :
    (colCount [("Open", 0), ("Sample Preparation", 0), ("Testing", 1), ("Report", 0)]
        "Testing").getD 0 ≤
      (colCount [("Open", 0), ("Sample Preparation", 0), ("Testing", 1), ("Report", 0)]
        "Testing").getD 0 :=
  c9_monotone_const_classification [c9StayRow] [7, 12] 7 12
    [("Open", 0), ("Sample Preparation", 0), ("Testing", 1), ("Report", 0)]
    [("Open", 0), ("Sample Preparation", 0), ("Testing", 1), ("Report", 0)]
    "Testing" (by decide) (by decide) (by decide) (by decide) (by decide)

/-! ## Claim C3 -/

/-- The processed rows are exactly the valid issues, in order, through
`makeRow`. -/
theorem processRows_eq (issues : List RawIssue) :
    processRows issues =
      (issues.filter (fun i => is_valid_job_number i.summary)).map makeRow := by
  induction issues with
  | nil => rfl
  | cons i t ih =>
    cases hv : is_valid_job_number i.summary with
    | false =>
      unfold processRows at ih ⊢
      simp [List.filterMap_cons, List.filter_cons, processRow_eq_none i hv, hv, ih]
    | true =>
      have hs : startsWithUpperAZ i.summary = true :=
        ((Bool.and_eq_true _ _).mp (by rwa [is_valid_job_number] at hv)).1
      have hm : matchJobPattern i.summary = true :=
        ((Bool.and_eq_true _ _).mp (by rwa [is_valid_job_number] at hv)).2
      have hpr : processRow i = some (makeRow i) := by
        unfold processRow
        simp [hs, hm]
      unfold processRows at ih ⊢
      simp [List.filterMap_cons, List.filter_cons, hpr, hv, ih]

/-- Insertion preserves the row multiset. -/
theorem insertSorted_perm (r : Row) (l : List Row) : (insertSorted r l).Perm (r :: l) := by
  induction l with
  | nil => exact List.Perm.refl _
  | cons x xs ih =>
    unfold insertSorted
    by_cases h : row_sort_le r x = true
    · rw [if_pos h]
    · rw [if_neg h]
      exact (ih.cons x).trans (List.Perm.swap r x xs)

/-- Sorting preserves the row multiset. -/
theorem sortRows_perm (l : List Row) : (sortRows l).Perm l := by
  induction l with
  | nil => exact List.Perm.refl _
  | cons x xs ih =>
    unfold sortRows
    exact (insertSorted_perm x (sortRows xs)).trans (ih.cons x)

/-- Valid issue from the C3 example. -/
def c3Valid : RawIssue :=
  { key := "A"
    summary := "ABCD1234.5 (6)"
    status := "Testing"
    created := ⟨1, 0⟩
    labels := []
    changelog := none }

/-- Issue with the same status but an invalid summary. -/
def c3Invalid : RawIssue :=
  { key := "B"
    summary := "bad job"
    status := "Testing"
    created := ⟨1, 0⟩
    labels := []
    changelog := none }

/-- C3 fails on the source: the invalid-summary issue is skipped by
`process_issues` before any row exists, so the status-only views returned by
`get_data` do not count it: with one valid and one invalid issue both in
status `Testing`, `total_issues` reports `Testing ↦ 1`, not 2 (the invalid
one is only recorded in the `invalid_jobs` diagnostics). -/
theorem c3_counterexample :
    (get_data_result [c3Valid, c3Invalid] [1] "Job Number" none none).map
      (fun res => res.total_issues) = Except.ok [("Testing", 1)] ∧
    invalid_jobs [c3Valid, c3Invalid] = [("B", "bad job")] ∧
    determine_stage c3Invalid.status = "Testing" := by
  exact ⟨by decide, by decide, by decide⟩

/-- C3 amended: invalid-summary issues are recorded in the invalid-jobs
diagnostics and excluded from every view `get_data` returns — the DataFrame,
the per-stage totals, and the per-stage percentages all range over valid
issues only (the percentage view is the count view divided by the number of
valid rows). -/
theorem c3_valid_only_views (issues : List RawIssue) (rows : List Row)
    (h : process_issues issues = Except.ok rows) :
    invalid_jobs issues =
      (issues.filter (fun i => ¬ is_valid_job_number i.summary)).map
        (fun i => (i.key, i.summary)) ∧
    rows.length = (issues.filter (fun i => is_valid_job_number i.summary)).length ∧
    (∀ s, (rows.filter (fun r => r.stage = s)).length =
      ((issues.filter (fun i => is_valid_job_number i.summary)).filter
        (fun i => determine_stage i.status = s)).length) ∧
    get_percentage_issues rows =
      (get_total_issues rows).map
        (fun p => (p.1, (p.2 : Rat) / (rows.length : Rat) * 100)) := by
  have hrows : rows = sortRows (processRows issues) := by
    unfold process_issues at h
    by_cases he : (processRows issues).isEmpty = true
    · rw [if_pos he] at h; cases h
    · rw [if_neg he] at h; injection h with h'; exact h'.symm
  have hperm : (sortRows (processRows issues)).Perm (processRows issues) := sortRows_perm _
  have hpr := processRows_eq issues
  refine ⟨rfl, ?_, ?_, ?_⟩
  · rw [hrows, hperm.length_eq, hpr, List.length_map]
  · intro s
    rw [hrows, ← List.countP_eq_length_filter, ← List.countP_eq_length_filter,
      List.Perm.countP_eq _ hperm, hpr, List.countP_map]
    rfl
  · rw [get_percentage_issues, get_total_issues, List.map_map]
    rfl

/-- Row produced for the valid C3 issue. -/
def c3ValidRow : Row :=
  { key := "A"
    job_number := "ABCD1234.5 (6)"
    status := "Testing"
    created_date := ⟨1, 0⟩
    stage := "Testing"
    status_changes := []
    location := "Toronto" }

/-- Witness for C3: the amended length identity on a one-issue fetch. -/
theorem c3_witness :
    ([c3ValidRow] : List Row).length =
      ([c3Valid].filter (fun i => is_valid_job_number i.summary)).length :=
  (c3_valid_only_views [c3Valid] [c3ValidRow] (by decide)).2.1

/-! ## Claim C8 -/

/-- Closed form of a blocked `wait_if_needed` call: with at least
`limit - buffer` entries surviving eviction, the slept call appends the
pre-sleep `now` and sleeps exactly until the first window entry exits the
window; the sleep is positive because that entry survived eviction. -/
theorem wait_if_needed_blocked (requests : List Int) (now oldest : Int) (rest : List Int)
    (hE : evictOld requests now = oldest :: rest)
    (hb : requests_per_minute - rate_buffer ≤ (evictOld requests now).length) :
    wait_if_needed requests now =
      { requests := (oldest :: rest) ++ [now], sleep_time := oldest + 60 - now } ∧
    0 < oldest + 60 - now := by
  have hmem : oldest ∈ evictOld requests now := by
    rw [hE]; exact List.mem_cons_self _ _
  have hlt : now - 60 < oldest := by
    unfold evictOld at hmem
    exact of_decide_eq_true (List.mem_filter.mp hmem).2
  have hspos : (0 : Int) < oldest + 60 - now := by omega
  have hb' : requests_per_minute - rate_buffer ≤ (oldest :: rest).length := by
    rwa [hE] at hb
  refine ⟨?_, hspos⟩
  unfold wait_if_needed
  dsimp only
  rw [hE, if_pos hb']
  dsimp only
  rw [if_pos hspos]

/-- Closed form of an unblocked `wait_if_needed` call. -/
theorem wait_if_needed_free (requests : List Int) (now : Int)
    (hb : (evictOld requests now).length < requests_per_minute - rate_buffer) :
    wait_if_needed requests now =
      { requests := evictOld requests now ++ [now], sleep_time := 0 } := by
  have hb0 : ¬ requests_per_minute - rate_buffer ≤ (evictOld requests now).length := by omega
  unfold wait_if_needed
  dsimp only
  rw [if_neg hb0]

/-- Window invariant of the rate limiter: in every reachable state, at any
time not earlier than the completion of the last call, the post-eviction
window holds at most `limit - buffer` entries. -/
theorem reachable_window_bound (w : List Int) (tmin : Int) (h : Reachable w tmin) :
    ∀ t, tmin ≤ t → (evictOld w t).length ≤ requests_per_minute - rate_buffer := by
  induction h with
  | init t0 =>
    intro t ht
    simp [evictOld]
  | step w' tmin' now hle hr ih =>
    intro t ht
    by_cases hb : requests_per_minute - rate_buffer ≤ (evictOld w' now).length
    · cases hE : evictOld w' now with
      | nil =>
        rw [hE] at hb
        simp only [List.length_nil] at hb
        exact absurd hb (by decide)
      | cons oldest rest =>
        obtain ⟨hw, hspos⟩ := wait_if_needed_blocked w' now oldest rest hE hb
        rw [hw] at ht ⊢
        dsimp only at ht ⊢
        have htt : oldest + 60 ≤ t := by omega
        have hrest : rest.length + 1 ≤ requests_per_minute - rate_buffer := by
          have hn := ih now hle
          rw [hE] at hn
          simpa using hn
        unfold evictOld
        rw [List.filter_append, List.length_append]
        have hneg : ¬ (decide (t - 60 < oldest) = true) := by
          simp; omega
        have hfc : List.filter (fun x => decide (t - 60 < x)) (oldest :: rest) =
            List.filter (fun x => decide (t - 60 < x)) rest :=
          List.filter_cons_of_neg hneg
        rw [hfc]
        have l1 : (List.filter (fun x => decide (t - 60 < x)) rest).length ≤ rest.length :=
          List.length_filter_le _ _
        have l2 : (List.filter (fun x => decide (t - 60 < x)) [now]).length ≤ 1 := by
          simpa using List.length_filter_le (fun x => decide (t - 60 < x)) [now]
        omega
    · push_neg at hb
      have hw := wait_if_needed_free w' now hb
      rw [hw] at ht ⊢
      dsimp only at ht ⊢
      unfold evictOld
      rw [List.filter_append, List.length_append]
      have l1 : (List.filter (fun x => decide (t - 60 < x))
          (List.filter (fun x => decide (now - 60 < x)) w')).length ≤
          (List.filter (fun x => decide (now - 60 < x)) w').length :=
        List.length_filter_le _ _
      have l2 : (List.filter (fun x => decide (t - 60 < x)) [now]).length ≤ 1 := by
        simpa using List.length_filter_le (fun x => decide (t - 60 < x)) [now]
      have hb' : (List.filter (fun x => decide (now - 60 < x)) w').length <
          requests_per_minute - rate_buffer := hb
      omega

/-- C8: `wait_if_needed` keeps exactly the timestamps younger than 60
seconds (so everything older is evicted) and appends the current call; when
the post-eviction window holds at least `limit - buffer` entries it blocks,
sleeping exactly until the oldest surviving entry exits the window, and
otherwise it does not sleep; with quota 50 and buffer 5, the 46th call in one
rolling minute sleeps (60 seconds in the all-at-once schedule) while the 45th
does not; and in every reachable state `get_current_usage` reports at most
`limit` current requests. -/
theorem c8_rate_limiter :
    (∀ (requests : List Int) (now x : Int),
      x ∈ evictOld requests now ↔ (x ∈ requests ∧ now - 60 < x)) ∧
    (∀ (requests : List Int) (now oldest : Int) (rest : List Int),
      evictOld requests now = oldest :: rest →
      requests_per_minute - rate_buffer ≤ (evictOld requests now).length →
      (wait_if_needed requests now).requests = (oldest :: rest) ++ [now] ∧
      0 < (wait_if_needed requests now).sleep_time ∧
      now + (wait_if_needed requests now).sleep_time = oldest + 60) ∧
    (∀ (requests : List Int) (now : Int),
      (evictOld requests now).length < requests_per_minute - rate_buffer →
      (wait_if_needed requests now).requests = evictOld requests now ++ [now] ∧
      (wait_if_needed requests now).sleep_time = 0) ∧
    ((wait_if_needed (List.replicate 45 (0 : Int)) 0).sleep_time = 60 ∧
     (wait_if_needed (List.replicate 44 (0 : Int)) 0).sleep_time = 0) ∧
    (∀ (w : List Int) (tmin : Int), Reachable w tmin → ∀ t, tmin ≤ t →
      (get_current_usage w t).current_requests ≤ requests_per_minute) := by
  refine ⟨?_, ?_, ?_, ⟨by decide, by decide⟩, ?_⟩
  · intro requests now x
    unfold evictOld
    simp [List.mem_filter]
  · intro requests now oldest rest hE hb
    obtain ⟨hw, hspos⟩ := wait_if_needed_blocked requests now oldest rest hE hb
    rw [hw]
    exact ⟨rfl, hspos, by dsimp only; omega⟩
  · intro requests now hb
    rw [wait_if_needed_free requests now hb]
    exact ⟨rfl, rfl⟩
  · intro w tmin hr t ht
    have hbound := reachable_window_bound w tmin hr t ht
    have hcur : (get_current_usage w t).current_requests = (evictOld w t).length := rfl
    have hsub : requests_per_minute - rate_buffer ≤ requests_per_minute :=
      Nat.sub_le _ _
    omega

/-- Witness for C8: the eviction characterization on a one-entry window, and
the usage bound at the initial state. -/
theorem c8_witness :
    ((0 : Int) ∈ evictOld [(0 : Int)] 0 ↔ ((0 : Int) ∈ [(0 : Int)] ∧ (0 : Int) - 60 < 0)) ∧
    (get_current_usage [] 0).current_requests ≤ requests_per_minute :=
  ⟨c8_rate_limiter.1 [0] 0 0,
   c8_rate_limiter.2.2.2.2 [] 0 (Reachable.init 0) 0 le_rfl⟩

end LJT
